import Mathlib

/-!
Verification of the disease-prediction repository's two scripts against their
specification.

The training side embeds `src/utils/train.py` (`train`) as a trace semantics:
the opaque collaborators (model, optimizer, dataloaders) are abstracted into
the per-epoch observations they produce (per-batch loss, predicted labels and
true labels), and `train` is the list of observable effects (writer entries,
log records, mode switches, checkpoint saves) the Python function performs on
those observations, in program order.

The quantization side embeds `src/run_quantize_inc.py` (`main`,
`evaluate_accuracy`) the same way: collaborator outcomes (directory existence,
loads and saves that may raise) are inputs, and the driver's control flow,
logging, early returns, exception propagation and the conditional auxiliary
file copy are reproduced from the source.
-/

namespace DiseasePred

/-- Observable effect of one step of `src/utils/train.py`'s `train` function.
Constructors mirror the statements of the source in program order; string
tags and paths are the literal ones the source passes.  `modelEvalMode`
exists so that "the model is never switched to evaluation mode" is statable;
the source never emits it. -/
inductive Event where
  | modelTrainMode
  | modelEvalMode
  | zeroGrad
  | forward (bf16 : Bool)
  | writerAddScalar (tag : String) (value : ℚ) (step : ℕ)
  | accumPreds
  | accumLabels
  | clipGrad (maxNorm : ℚ)
  | backward
  | optimizerStep
  | accumLoss
  | logTrainAcc (value : ℚ)
  | valForward (bf16 : Bool)
  | valAccumPreds
  | valAccumLabels
  | logTestAcc (value : ℚ)
  | logEpochLoss (epoch : ℕ) (loss : ℚ)
  | mkdirSaveDir (path : String)
  | saveTokenizer (path : String)
  | saveModel (path : String)
  | logSavedFiles (path : String)
  | logSavedAtEpoch (epoch : ℕ)
  | writerClose
  deriving DecidableEq, Repr

/-- Observed result of one training batch: the scalar loss `out.loss`, the
predicted labels `out.logits.argmax(-1)` (one per sample) and the batch's
true labels. -/
structure BatchResult where
  loss : ℚ
  preds : List ℤ
  labels : List ℤ
  deriving DecidableEq, Repr

/-- Observed result of one validation batch: predicted labels
`pred.logits.argmax(-1)` and the batch's true labels. -/
structure ValBatchResult where
  preds : List ℤ
  labels : List ℤ
  deriving DecidableEq, Repr

/-- Observations of one epoch: what the train dataloader pass and the
validation dataloader pass produce in that epoch. -/
structure EpochInput where
  trainBatches : List BatchResult
  valBatches : List ValBatchResult
  deriving DecidableEq, Repr

/-- Flags object as used by `train`: only `save_model_dir` is read
(`if flags.save_model_dir:`); `none` models a falsy value. -/
structure Flags where
  save_model_dir : Option String
  deriving DecidableEq, Repr

/-- sklearn's `accuracy_score` on two equally long label sequences: the
fraction of positions where they agree. -/
def accuracy_score (a b : List ℤ) : ℚ :=
  (((a.zip b).countP fun p => p.1 == p.2 : ℕ) : ℚ) / (a.length : ℚ)

/-- Events of one iteration of the training batch loop
(train.py lines 63-100), in statement order. -/
def trainStepEvents (bf16 : Bool) (maxGradNorm : ℚ) (epoch : ℕ) (b : BatchResult) :
    List Event :=
  [Event.zeroGrad,
   Event.forward bf16,
   Event.writerAddScalar "Loss/train" b.loss epoch,
   Event.accumPreds,
   Event.accumLabels,
   Event.clipGrad maxGradNorm,
   Event.backward,
   Event.optimizerStep,
   Event.accumLoss]

/-- Events of one iteration of the validation loop (train.py lines 106-117). -/
def valStepEvents (bf16 : Bool) (_b : ValBatchResult) : List Event :=
  [Event.valForward bf16, Event.valAccumPreds, Event.valAccumLabels]

/-- The value `trainAcc = accuracy_score(train_preds, train_labels)` computed
at train.py line 101 from the extended per-batch prediction lists. -/
def epochTrainAcc (e : EpochInput) : ℚ :=
  accuracy_score ((e.trainBatches.map BatchResult.preds).flatten)
    ((e.trainBatches.map BatchResult.labels).flatten)

/-- The value `testAcc = accuracy_score(test_preds, test_labels)` computed at
train.py line 119. -/
def epochTestAcc (e : EpochInput) : ℚ :=
  accuracy_score ((e.valBatches.map ValBatchResult.preds).flatten)
    ((e.valBatches.map ValBatchResult.labels).flatten)

/-- The value of `running_loss` at the end of an epoch (train.py line 100). -/
def epochRunningLoss (e : EpochInput) : ℚ :=
  (e.trainBatches.map BatchResult.loss).sum

/-- The checkpoint block, train.py lines 137-145: save only when
`(testAcc > acc) and (testAcc > 0.8) and (testAcc < 0.95)` and
`flags.save_model_dir` is truthy. -/
def checkpointEvents (flags : Flags) (acc testAcc : ℚ) (epoch : ℕ) : List Event :=
  if testAcc > acc ∧ testAcc > 8/10 ∧ testAcc < 95/100 then
    match flags.save_model_dir with
    | some path =>
        [Event.mkdirSaveDir path, Event.saveTokenizer path, Event.saveModel path,
         Event.logSavedFiles path, Event.logSavedAtEpoch epoch]
    | none => []
  else []

/-- Events of one epoch body (train.py lines 59-145) given the current value
of the variable `acc`.  Line 102 logs `acc` itself, not `trainAcc`. -/
def epochEvents (flags : Flags) (bf16 : Bool) (maxGradNorm : ℚ) (acc : ℚ)
    (epoch : ℕ) (e : EpochInput) : List Event :=
  (e.trainBatches.flatMap (trainStepEvents bf16 maxGradNorm epoch))
    ++ [Event.logTrainAcc acc]
    ++ (e.valBatches.flatMap (valStepEvents bf16))
    ++ [Event.logTestAcc (epochTestAcc e),
        Event.logEpochLoss epoch (epochRunningLoss e),
        Event.writerAddScalar "Accuracy/train" (epochTrainAcc e) epoch,
        Event.writerAddScalar "Accuracy/test" (epochTestAcc e) epoch]
    ++ checkpointEvents flags acc (epochTestAcc e) epoch

/-- The epoch loop of `train` threading the local variable `acc`.  The loop
body of the source contains no assignment to `acc`, so each iteration passes
it on unchanged; the returned rational is the value of `acc` after the
processed epochs. -/
def trainLoop (flags : Flags) (bf16 : Bool) (maxGradNorm : ℚ) :
    ℚ → ℕ → List EpochInput → List Event × ℚ
  | acc, _, [] => ([], acc)
  | acc, epoch, e :: rest =>
      let r := trainLoop flags bf16 maxGradNorm acc (epoch + 1) rest
      (epochEvents flags bf16 maxGradNorm acc epoch e ++ r.1, r.2)

/-- Trace of `train` (train.py lines 32-147): `acc` starts at 0 (line 55),
`model.train()` runs once before the loop (line 57), the loop runs over
epochs 1..N (line 59), and the writer is closed at the end (line 147).
`es` lists the per-epoch collaborator observations; its length is the
`epochs` argument. -/
def train (flags : Flags) (bf16 : Bool) (maxGradNorm : ℚ)
    (es : List EpochInput) : List Event :=
  Event.modelTrainMode ::
    ((trainLoop flags bf16 maxGradNorm 0 1 es).1 ++ [Event.writerClose])

/-- Value of the variable `acc` after the first `k` epochs of a run. -/
def accAfterEpochs (flags : Flags) (bf16 : Bool) (maxGradNorm : ℚ)
    (es : List EpochInput) (k : ℕ) : ℚ :=
  (trainLoop flags bf16 maxGradNorm 0 1 (es.take k)).2

/-- Epoch indices at which a checkpoint save completed, read off the
"Saved model at epoch" log records of a trace. -/
def savedEpochs (evs : List Event) : List ℕ :=
  evs.filterMap fun e =>
    match e with
    | Event.logSavedAtEpoch k => some k
    | _ => none

/-- Epoch keys of the writer's "Loss/train" entries, in emission order. -/
def lossEntryKeys (evs : List Event) : List ℕ :=
  evs.filterMap fun e =>
    match e with
    | Event.writerAddScalar tag _ step =>
        if tag = "Loss/train" then some step else none
    | _ => none

/-- Value and epoch key of each writer "Accuracy/train" entry, in order. -/
def accTrainEntries (evs : List Event) : List (ℚ × ℕ) :=
  evs.filterMap fun e =>
    match e with
    | Event.writerAddScalar tag v step =>
        if tag = "Accuracy/train" then some (v, step) else none
    | _ => none

/-- Value and epoch key of each writer "Accuracy/test" entry, in order. -/
def accTestEntries (evs : List Event) : List (ℚ × ℕ) :=
  evs.filterMap fun e =>
    match e with
    | Event.writerAddScalar tag v step =>
        if tag = "Accuracy/test" then some (v, step) else none
    | _ => none

/-- Values reported by the per-epoch "Epoch Train Accuracy" log records. -/
def loggedTrainAccs (evs : List Event) : List ℚ :=
  evs.filterMap fun e =>
    match e with
    | Event.logTrainAcc v => some v
    | _ => none

/-- Epoch keys of the per-epoch "Epoch %d, Loss %.4f" log records. -/
def epochLossKeys (evs : List Event) : List ℕ :=
  evs.filterMap fun e =>
    match e with
    | Event.logEpochLoss k _ => some k
    | _ => none

/-- Whether an event is one of the mutation-phase operations of a training
step named by the specification. -/
def isMutationOp : Event → Bool
  | Event.zeroGrad => true
  | Event.forward _ => true
  | Event.accumPreds => true
  | Event.accumLabels => true
  | Event.clipGrad _ => true
  | Event.backward => true
  | Event.optimizerStep => true
  | Event.accumLoss => true
  | _ => false

/-- Trace restricted to the mutation-phase operations. -/
def mutationOps (evs : List Event) : List Event :=
  evs.filter isMutationOp

/-- Train/eval mode of the model after a list of events, starting from
`init` (`true` = training mode). -/
def modeAt (init : Bool) (evs : List Event) : Bool :=
  evs.foldl
    (fun m e =>
      match e with
      | Event.modelTrainMode => true
      | Event.modelEvalMode => false
      | _ => m)
    init

/-- Python exception as far as `run_quantize_inc.py` distinguishes them:
`FileNotFoundError` versus anything else (identified by a tag). -/
inductive PyExc where
  | fileNotFound
  | err (tag : String)
  deriving DecidableEq, Repr

/-- Log records `main` of `run_quantize_inc.py` can emit:
`logger.error("Saved model %s not found!", ...)` (line 100),
`logger.error("Please follow instructions to download data.")` (line 114) and
`logger.error(exc, exc_info=True)` (line 115). -/
inductive QEvent where
  | logModelNotFound (dir : String)
  | logDownloadData
  | logExcTraceback
  deriving DecidableEq, Repr

/-- Command-line flags of `run_quantize_inc.py`. -/
structure QuantFlags where
  input_file : String
  batch_size : ℤ
  saved_model_dir : String
  output_dir : String
  seq_length : ℤ
  deriving DecidableEq, Repr

/-- One run's environment for `main`: the outcome each collaborator call
would produce, plus the relevant directory contents.  Directory contents are
lists of file names with membership semantics. -/
structure QuantWorld where
  flags : QuantFlags
  savedModelDirExists : Bool
  tokenizerLoad : Except PyExc Unit
  preprocess : Except PyExc Unit
  modelLoad : Except PyExc Unit
  quantFit : Except PyExc Unit
  quantSave : Except PyExc Unit
  srcFiles : List String
  outFiles0 : List String
  saveFiles : List String
  deriving Repr

/-- Result of a run of `main`: either a normal return or an uncaught
exception, together with the log records emitted and the final contents of
`output_dir`. -/
inductive QOutcome where
  | ret (events : List QEvent) (outFiles : List String)
  | raised (e : PyExc) (events : List QEvent) (outFiles : List String)
  deriving DecidableEq, Repr

/-- Whether `chars` starts with `needle`. -/
def startsWithChars : List Char → List Char → Bool
  | [], _ => true
  | _ :: _, [] => false
  | a :: as, b :: bs => a == b && startsWithChars as bs

/-- Whether `needle` occurs contiguously inside the second list. -/
def containsChars (needle : List Char) : List Char → Bool
  | [] => startsWithChars needle []
  | b :: bs => startsWithChars needle (b :: bs) || containsChars needle bs

/-- fnmatch pattern `*.bin*` used by `shutil.ignore_patterns("*.bin*")` at
run_quantize_inc.py line 128: matches exactly the names containing ".bin". -/
def matchesBinPattern (s : String) : Bool :=
  containsChars ".bin".data s.data

/-- The conditional auxiliary copy, run_quantize_inc.py lines 124-130: when
"best_model.pt" is present in `output_dir`, `shutil.copytree` merges every
source file not matching `*.bin*` into `output_dir` (`dirs_exist_ok=True`);
otherwise nothing happens. -/
def copyNonWeightFiles (srcFiles outFiles : List String) : List String :=
  if "best_model.pt" ∈ outFiles then
    outFiles ++ (srcFiles.filter fun f => !(matchesBinPattern f))
  else outFiles

/-- Driver `main` of run_quantize_inc.py (lines 88-130): validate that the
saved model directory exists (early return, line 99-101), load the tokenizer
(line 103, may raise), preprocess the data catching only `FileNotFoundError`
(lines 106-116), load the model (line 118, may raise), run the quantization
fit and save the quantized model (lines 120-121, may raise), then perform the
conditional auxiliary copy (lines 124-130). -/
def main (w : QuantWorld) : QOutcome :=
  if w.savedModelDirExists = false then
    QOutcome.ret [QEvent.logModelNotFound w.flags.saved_model_dir] w.outFiles0
  else
    match w.tokenizerLoad with
    | Except.error e => QOutcome.raised e [] w.outFiles0
    | Except.ok _ =>
      match w.preprocess with
      | Except.error PyExc.fileNotFound =>
          QOutcome.ret [QEvent.logDownloadData, QEvent.logExcTraceback] w.outFiles0
      | Except.error e => QOutcome.raised e [] w.outFiles0
      | Except.ok _ =>
        match w.modelLoad with
        | Except.error e => QOutcome.raised e [] w.outFiles0
        | Except.ok _ =>
          match w.quantFit with
          | Except.error e => QOutcome.raised e [] w.outFiles0
          | Except.ok _ =>
            match w.quantSave with
            | Except.error e => QOutcome.raised e [] w.outFiles0
            | Except.ok _ =>
                QOutcome.ret []
                  (copyNonWeightFiles w.srcFiles (w.outFiles0 ++ w.saveFiles))

/-- Accumulation loop of `evaluate_accuracy` (run_quantize_inc.py lines
61-72): fold over the loader extending `test_preds` with the model's argmax
outputs for the batch and `test_labels` with the batch's labels.
`modelArgmax` is the composite `model_q(...).logits.argmax(-1)`, one
prediction per sample of the batch. -/
def evalLoop {α : Type} (modelArgmax : α → List ℤ)
    (loader : List (α × List ℤ)) : List ℤ × List ℤ :=
  loader.foldl (fun acc bl => (acc.1 ++ modelArgmax bl.1, acc.2 ++ bl.2)) ([], [])

/-- Evaluation function handed to `quantization.fit` (run_quantize_inc.py
lines 60-74): accuracy of the accumulated predictions against the
accumulated labels. -/
def evaluate_accuracy {α : Type} (modelArgmax : α → List ℤ)
    (loader : List (α × List ℤ)) : ℚ :=
  accuracy_score (evalLoop modelArgmax loader).1 (evalLoop modelArgmax loader).2

/-- Mutation-phase operations of one training step, in source order. -/
def mutationPattern (bf16 : Bool) (mgn : ℚ) : List Event :=
  [Event.zeroGrad, Event.forward bf16, Event.accumPreds, Event.accumLabels,
   Event.clipGrad mgn, Event.backward, Event.optimizerStep, Event.accumLoss]

def wFlags : Flags := ⟨some "saved_model"⟩

def wEpoch : EpochInput :=
  ⟨[⟨1, [0], [0]⟩], [⟨[0, 0, 0, 0, 0, 0, 0, 0, 0, 0], [0, 0, 0, 0, 0, 0, 0, 0, 0, 1]⟩]⟩

def cexFlags : Flags := ⟨none⟩

def cexEpoch : EpochInput := ⟨[⟨1, [0], [0]⟩, ⟨1, [0], [0]⟩], [⟨[0], [0]⟩]⟩

def qFlagsC : QuantFlags := ⟨"disease.csv", 10, "saved_model", "output", 512⟩

def cwMissing : QuantWorld :=
  ⟨qFlagsC, false, Except.ok (), Except.ok (), Except.ok (), Except.ok (),
   Except.ok (), [], [], []⟩

def cwFnf : QuantWorld :=
  ⟨qFlagsC, true, Except.ok (), Except.error PyExc.fileNotFound, Except.ok (),
   Except.ok (), Except.ok (), [], [], []⟩

def cwOther : QuantWorld :=
  ⟨qFlagsC, true, Except.ok (), Except.error (PyExc.err "RuntimeError"),
   Except.ok (), Except.ok (), Except.ok (), [], [], []⟩

def cwOk : QuantWorld :=
  ⟨qFlagsC, true, Except.ok (), Except.ok (), Except.ok (), Except.ok (),
   Except.ok (), ["vocab.txt", "config.json", "pytorch_model.bin"], [],
   ["best_model.pt"]⟩

def cModel : Unit → List ℤ := fun _ => [0, 1]

def cLoader : List (Unit × List ℤ) := [((), [0, 1])]

lemma filterMap_flatMap' {α β γ : Type} (l : List α) (g : α → List β) (f : β → Option γ) :
    List.filterMap f (l.flatMap g) = l.flatMap fun a => List.filterMap f (g a) := by
  induction l with
  | nil => simp
  | cons h t ih => simp [List.flatMap_cons, List.filterMap_append, ih]

lemma flatMap_const_singleton {α β : Type} (l : List α) (c : β) :
    (l.flatMap fun _ => [c]) = List.replicate l.length c := by
  induction l with
  | nil => simp
  | cons h t ih => simp [List.flatMap_cons, ih, List.replicate_succ]

lemma flatMap_const_nil {α β : Type} (l : List α) :
    (l.flatMap fun _ => ([] : List β)) = [] := by
  induction l with
  | nil => simp
  | cons h t ih => simp [List.flatMap_cons, ih]

lemma savedEpochs_checkpointEvents (flags : Flags) (acc a : ℚ) (ep : ℕ) :
    savedEpochs (checkpointEvents flags acc a ep) =
      if (a > acc ∧ a > 8/10 ∧ a < 95/100) ∧ flags.save_model_dir ≠ none then [ep]
      else [] := by
  unfold checkpointEvents savedEpochs
  cases h : flags.save_model_dir <;> split_ifs <;> simp_all

lemma savedEpochs_epochEvents (flags : Flags) (bf : Bool) (mgn acc : ℚ) (ep : ℕ)
    (e : EpochInput) :
    savedEpochs (epochEvents flags bf mgn acc ep e) =
      if (epochTestAcc e > acc ∧ epochTestAcc e > 8/10 ∧ epochTestAcc e < 95/100) ∧
          flags.save_model_dir ≠ none then [ep]
      else [] := by
  rw [← savedEpochs_checkpointEvents flags acc (epochTestAcc e) ep]
  unfold epochEvents savedEpochs
  simp [List.filterMap_append, filterMap_flatMap', trainStepEvents, valStepEvents,
    flatMap_const_nil]

lemma lossEntryKeys_epochEvents (flags : Flags) (bf : Bool) (mgn acc : ℚ) (ep : ℕ)
    (e : EpochInput) :
    lossEntryKeys (epochEvents flags bf mgn acc ep e) =
      List.replicate e.trainBatches.length ep := by
  unfold epochEvents lossEntryKeys checkpointEvents
  cases h : flags.save_model_dir <;> split_ifs <;>
    simp [List.filterMap_append, filterMap_flatMap', trainStepEvents, valStepEvents,
      flatMap_const_singleton, flatMap_const_nil]

lemma accTrainEntries_epochEvents (flags : Flags) (bf : Bool) (mgn acc : ℚ) (ep : ℕ)
    (e : EpochInput) :
    accTrainEntries (epochEvents flags bf mgn acc ep e) = [(epochTrainAcc e, ep)] := by
  unfold epochEvents accTrainEntries checkpointEvents
  cases h : flags.save_model_dir <;> split_ifs <;>
    simp [List.filterMap_append, filterMap_flatMap', trainStepEvents, valStepEvents,
      flatMap_const_nil]

lemma accTestEntries_epochEvents (flags : Flags) (bf : Bool) (mgn acc : ℚ) (ep : ℕ)
    (e : EpochInput) :
    accTestEntries (epochEvents flags bf mgn acc ep e) = [(epochTestAcc e, ep)] := by
  unfold epochEvents accTestEntries checkpointEvents
  cases h : flags.save_model_dir <;> split_ifs <;>
    simp [List.filterMap_append, filterMap_flatMap', trainStepEvents, valStepEvents,
      flatMap_const_nil]

lemma loggedTrainAccs_epochEvents (flags : Flags) (bf : Bool) (mgn acc : ℚ) (ep : ℕ)
    (e : EpochInput) :
    loggedTrainAccs (epochEvents flags bf mgn acc ep e) = [acc] := by
  unfold epochEvents loggedTrainAccs checkpointEvents
  cases h : flags.save_model_dir <;> split_ifs <;>
    simp [List.filterMap_append, filterMap_flatMap', trainStepEvents, valStepEvents,
      flatMap_const_nil]

lemma epochLossKeys_epochEvents (flags : Flags) (bf : Bool) (mgn acc : ℚ) (ep : ℕ)
    (e : EpochInput) :
    epochLossKeys (epochEvents flags bf mgn acc ep e) = [ep] := by
  unfold epochEvents epochLossKeys checkpointEvents
  cases h : flags.save_model_dir <;> split_ifs <;>
    simp [List.filterMap_append, filterMap_flatMap', trainStepEvents, valStepEvents,
      flatMap_const_nil]

lemma filter_flatMap' {α β : Type} (l : List α) (g : α → List β) (p : β → Bool) :
    List.filter p (l.flatMap g) = l.flatMap fun a => List.filter p (g a) := by
  induction l with
  | nil => simp
  | cons h t ih => simp [List.flatMap_cons, List.filter_append, ih]

lemma flatMap_const {α β : Type} (l : List α) (c : List β) :
    (l.flatMap fun _ => c) = (List.replicate l.length c).flatten := by
  induction l with
  | nil => simp
  | cons h t ih => simp [List.flatMap_cons, ih, List.replicate_succ]

lemma mutationOps_epochEvents (flags : Flags) (bf : Bool) (mgn acc : ℚ) (ep : ℕ)
    (e : EpochInput) :
    mutationOps (epochEvents flags bf mgn acc ep e) =
      (List.replicate e.trainBatches.length (mutationPattern bf mgn)).flatten := by
  unfold epochEvents mutationOps checkpointEvents
  cases h : flags.save_model_dir <;> split_ifs <;>
    simp [List.filter_append, filter_flatMap', trainStepEvents, valStepEvents,
      isMutationOp, mutationPattern, flatMap_const]

lemma evalMode_not_mem_epochEvents (flags : Flags) (bf : Bool) (mgn acc : ℚ) (ep : ℕ)
    (e : EpochInput) :
    Event.modelEvalMode ∉ epochEvents flags bf mgn acc ep e := by
  unfold epochEvents checkpointEvents
  cases h : flags.save_model_dir <;> split_ifs <;>
    simp [List.mem_append, List.mem_flatMap, trainStepEvents, valStepEvents]

lemma trainLoop_acc (flags : Flags) (bf : Bool) (mgn : ℚ) :
    ∀ (es : List EpochInput) (acc : ℚ) (j : ℕ),
      (trainLoop flags bf mgn acc j es).2 = acc := by
  intro es
  induction es with
  | nil => intro acc j; rfl
  | cons e rest ih => intro acc j; simpa [trainLoop] using ih acc (j + 1)

lemma trainLoop_cons (flags : Flags) (bf : Bool) (mgn acc : ℚ) (j : ℕ)
    (e : EpochInput) (rest : List EpochInput) :
    (trainLoop flags bf mgn acc j (e :: rest)).1 =
      epochEvents flags bf mgn acc j e ++ (trainLoop flags bf mgn acc (j + 1) rest).1 :=
  rfl

lemma savedEpochs_append (l1 l2 : List Event) :
    savedEpochs (l1 ++ l2) = savedEpochs l1 ++ savedEpochs l2 :=
  List.filterMap_append l1 l2 _

lemma lossEntryKeys_append (l1 l2 : List Event) :
    lossEntryKeys (l1 ++ l2) = lossEntryKeys l1 ++ lossEntryKeys l2 :=
  List.filterMap_append l1 l2 _

lemma accTrainEntries_append (l1 l2 : List Event) :
    accTrainEntries (l1 ++ l2) = accTrainEntries l1 ++ accTrainEntries l2 :=
  List.filterMap_append l1 l2 _

lemma accTestEntries_append (l1 l2 : List Event) :
    accTestEntries (l1 ++ l2) = accTestEntries l1 ++ accTestEntries l2 :=
  List.filterMap_append l1 l2 _

lemma loggedTrainAccs_append (l1 l2 : List Event) :
    loggedTrainAccs (l1 ++ l2) = loggedTrainAccs l1 ++ loggedTrainAccs l2 :=
  List.filterMap_append l1 l2 _

lemma epochLossKeys_append (l1 l2 : List Event) :
    epochLossKeys (l1 ++ l2) = epochLossKeys l1 ++ epochLossKeys l2 :=
  List.filterMap_append l1 l2 _

lemma mutationOps_append (l1 l2 : List Event) :
    mutationOps (l1 ++ l2) = mutationOps l1 ++ mutationOps l2 :=
  List.filter_append l1 l2

lemma mem_savedEpochs_trainLoop (flags : Flags) (bf : Bool) (mgn : ℚ) :
    ∀ (es : List EpochInput) (acc : ℚ) (j m : ℕ),
      (m ∈ savedEpochs (trainLoop flags bf mgn acc j es).1 ↔
        ∃ k : ℕ, ∃ hk : k < es.length, m = j + k ∧
          (epochTestAcc (es.get ⟨k, hk⟩) > acc ∧
           epochTestAcc (es.get ⟨k, hk⟩) > 8/10 ∧
           epochTestAcc (es.get ⟨k, hk⟩) < 95/100) ∧
          flags.save_model_dir ≠ none) := by
  intro es
  induction es with
  | nil =>
      intro acc j m
      simp [trainLoop, savedEpochs]
  | cons e rest ih =>
      intro acc j m
      rw [trainLoop_cons, savedEpochs_append, List.mem_append,
        savedEpochs_epochEvents, ih acc (j + 1) m]
      constructor
      · rintro (hfirst | ⟨k, hk, hm, hcond, hdir⟩)
        · by_cases hc : (epochTestAcc e > acc ∧ epochTestAcc e > 8/10 ∧
              epochTestAcc e < 95/100) ∧ flags.save_model_dir ≠ none
          · rw [if_pos hc, List.mem_singleton] at hfirst
            refine ⟨0, by simp, by omega, ?_, hc.2⟩
            simpa using hc.1
          · rw [if_neg hc] at hfirst
            simp at hfirst
        · refine ⟨k + 1, by simpa using hk, by omega, ?_, hdir⟩
          simpa using hcond
      · rintro ⟨k, hk, hm, hcond, hdir⟩
        cases k with
        | zero =>
            left
            rw [if_pos ⟨by simpa using hcond, hdir⟩, List.mem_singleton]
            omega
        | succ k' =>
            right
            refine ⟨k', by simpa using hk, by omega, ?_, hdir⟩
            simpa using hcond

lemma lossEntryKeys_trainLoop (flags : Flags) (bf : Bool) (mgn : ℚ) :
    ∀ (es : List EpochInput) (acc : ℚ) (j : ℕ),
      lossEntryKeys (trainLoop flags bf mgn acc j es).1 =
        (List.enumFrom j es).flatMap fun ie =>
          List.replicate ie.2.trainBatches.length ie.1 := by
  intro es
  induction es with
  | nil => intro acc j; simp [trainLoop, lossEntryKeys]
  | cons e rest ih =>
      intro acc j
      rw [trainLoop_cons, lossEntryKeys_append, lossEntryKeys_epochEvents,
        ih acc (j + 1)]
      simp [List.enumFrom]

lemma accTrainEntries_trainLoop (flags : Flags) (bf : Bool) (mgn : ℚ) :
    ∀ (es : List EpochInput) (acc : ℚ) (j : ℕ),
      accTrainEntries (trainLoop flags bf mgn acc j es).1 =
        (List.enumFrom j es).map fun ie => (epochTrainAcc ie.2, ie.1) := by
  intro es
  induction es with
  | nil => intro acc j; simp [trainLoop, accTrainEntries]
  | cons e rest ih =>
      intro acc j
      rw [trainLoop_cons, accTrainEntries_append, accTrainEntries_epochEvents,
        ih acc (j + 1)]
      simp [List.enumFrom]

lemma accTestEntries_trainLoop (flags : Flags) (bf : Bool) (mgn : ℚ) :
    ∀ (es : List EpochInput) (acc : ℚ) (j : ℕ),
      accTestEntries (trainLoop flags bf mgn acc j es).1 =
        (List.enumFrom j es).map fun ie => (epochTestAcc ie.2, ie.1) := by
  intro es
  induction es with
  | nil => intro acc j; simp [trainLoop, accTestEntries]
  | cons e rest ih =>
      intro acc j
      rw [trainLoop_cons, accTestEntries_append, accTestEntries_epochEvents,
        ih acc (j + 1)]
      simp [List.enumFrom]

lemma loggedTrainAccs_trainLoop (flags : Flags) (bf : Bool) (mgn : ℚ) :
    ∀ (es : List EpochInput) (acc : ℚ) (j : ℕ),
      loggedTrainAccs (trainLoop flags bf mgn acc j es).1 =
        List.replicate es.length acc := by
  intro es
  induction es with
  | nil => intro acc j; simp [trainLoop, loggedTrainAccs]
  | cons e rest ih =>
      intro acc j
      rw [trainLoop_cons, loggedTrainAccs_append, loggedTrainAccs_epochEvents,
        ih acc (j + 1)]
      simp [List.replicate_succ]

lemma epochLossKeys_trainLoop (flags : Flags) (bf : Bool) (mgn : ℚ) :
    ∀ (es : List EpochInput) (acc : ℚ) (j : ℕ),
      epochLossKeys (trainLoop flags bf mgn acc j es).1 = List.range' j es.length := by
  intro es
  induction es with
  | nil => intro acc j; simp [trainLoop, epochLossKeys]
  | cons e rest ih =>
      intro acc j
      rw [trainLoop_cons, epochLossKeys_append, epochLossKeys_epochEvents,
        ih acc (j + 1)]
      simp [List.range'_succ]

lemma mutationOps_trainLoop (flags : Flags) (bf : Bool) (mgn : ℚ) :
    ∀ (es : List EpochInput) (acc : ℚ) (j : ℕ),
      mutationOps (trainLoop flags bf mgn acc j es).1 =
        (List.replicate ((es.map fun e => e.trainBatches.length).sum)
          (mutationPattern bf mgn)).flatten := by
  intro es
  induction es with
  | nil => intro acc j; simp [trainLoop, mutationOps]
  | cons e rest ih =>
      intro acc j
      rw [trainLoop_cons, mutationOps_append, mutationOps_epochEvents,
        ih acc (j + 1)]
      rw [List.map_cons, List.sum_cons, List.replicate_add, List.flatten_append]

lemma evalMode_not_mem_trainLoop (flags : Flags) (bf : Bool) (mgn : ℚ) :
    ∀ (es : List EpochInput) (acc : ℚ) (j : ℕ),
      Event.modelEvalMode ∉ (trainLoop flags bf mgn acc j es).1 := by
  intro es
  induction es with
  | nil => intro acc j; simp [trainLoop]
  | cons e rest ih =>
      intro acc j
      rw [trainLoop_cons, List.mem_append]
      push_neg
      exact ⟨evalMode_not_mem_epochEvents flags bf mgn acc j e, ih acc (j + 1)⟩

lemma savedEpochs_train (flags : Flags) (bf : Bool) (mgn : ℚ) (es : List EpochInput) :
    savedEpochs (train flags bf mgn es) =
      savedEpochs (trainLoop flags bf mgn 0 1 es).1 := by
  unfold train savedEpochs
  simp [List.filterMap_append]

lemma lossEntryKeys_train (flags : Flags) (bf : Bool) (mgn : ℚ) (es : List EpochInput) :
    lossEntryKeys (train flags bf mgn es) =
      lossEntryKeys (trainLoop flags bf mgn 0 1 es).1 := by
  unfold train lossEntryKeys
  simp [List.filterMap_append]

lemma accTrainEntries_train (flags : Flags) (bf : Bool) (mgn : ℚ) (es : List EpochInput) :
    accTrainEntries (train flags bf mgn es) =
      accTrainEntries (trainLoop flags bf mgn 0 1 es).1 := by
  unfold train accTrainEntries
  simp [List.filterMap_append]

lemma accTestEntries_train (flags : Flags) (bf : Bool) (mgn : ℚ) (es : List EpochInput) :
    accTestEntries (train flags bf mgn es) =
      accTestEntries (trainLoop flags bf mgn 0 1 es).1 := by
  unfold train accTestEntries
  simp [List.filterMap_append]

lemma loggedTrainAccs_train (flags : Flags) (bf : Bool) (mgn : ℚ) (es : List EpochInput) :
    loggedTrainAccs (train flags bf mgn es) =
      loggedTrainAccs (trainLoop flags bf mgn 0 1 es).1 := by
  unfold train loggedTrainAccs
  simp [List.filterMap_append]

lemma epochLossKeys_train (flags : Flags) (bf : Bool) (mgn : ℚ) (es : List EpochInput) :
    epochLossKeys (train flags bf mgn es) =
      epochLossKeys (trainLoop flags bf mgn 0 1 es).1 := by
  unfold train epochLossKeys
  simp [List.filterMap_append]

lemma mutationOps_train (flags : Flags) (bf : Bool) (mgn : ℚ) (es : List EpochInput) :
    mutationOps (train flags bf mgn es) =
      mutationOps (trainLoop flags bf mgn 0 1 es).1 := by
  unfold train mutationOps
  simp [List.filter_append, isMutationOp]

lemma evalMode_not_mem_train (flags : Flags) (bf : Bool) (mgn : ℚ)
    (es : List EpochInput) :
    Event.modelEvalMode ∉ train flags bf mgn es := by
  intro hmem
  rw [train] at hmem
  simp only [List.mem_cons, List.mem_append, List.mem_singleton] at hmem
  rcases hmem with h | h | h | h
  · exact Event.noConfusion h
  · exact evalMode_not_mem_trainLoop flags bf mgn es 0 1 h
  · exact Event.noConfusion h
  · exact absurd h (List.not_mem_nil _)

lemma modeAt_true_of_no_eval :
    ∀ l : List Event, Event.modelEvalMode ∉ l → modeAt true l = true := by
  intro l
  induction l with
  | nil => intro _; rfl
  | cons e t ih =>
      intro h
      rw [List.mem_cons] at h
      push_neg at h
      cases e <;> first
        | exact absurd rfl h.1
        | exact ih h.2

lemma evalLoop_spec {α : Type} (m : α → List ℤ) :
    ∀ (loader : List (α × List ℤ)) (acc : List ℤ × List ℤ),
      loader.foldl (fun acc bl => (acc.1 ++ m bl.1, acc.2 ++ bl.2)) acc =
        (acc.1 ++ (loader.map fun bl => m bl.1).flatten,
         acc.2 ++ (loader.map fun bl => bl.2).flatten) := by
  intro loader
  induction loader with
  | nil => intro acc; simp
  | cons b t ih => intro acc; simp [List.foldl_cons, ih, List.append_assoc]

lemma accuracy_score_bounds (a b : List ℤ) :
    0 ≤ accuracy_score a b ∧ accuracy_score a b ≤ 1 := by
  unfold accuracy_score
  constructor
  · positivity
  · rcases Nat.eq_zero_or_pos a.length with h | h
    · rw [h]
      norm_num
    · rw [div_le_one (by positivity)]
      have hle : ((a.zip b).countP fun p => p.1 == p.2) ≤ a.length := by
        calc ((a.zip b).countP fun p => p.1 == p.2) ≤ (a.zip b).length :=
              List.countP_le_length _
          _ ≤ a.length := by rw [List.length_zip]; exact Nat.min_le_left _ _
      exact_mod_cast hle

/-- C1: with a configured save directory, the checkpoint-save step executes
after epoch k+1 iff that epoch's validation accuracy exceeds the tracking
variable (0) and lies strictly between 0.80 and 0.95. -/
theorem checkpoint_save_iff_accuracy_in_band (flags : Flags) (p : String)
    (hdir : flags.save_model_dir = some p) (bf : Bool) (mgn : ℚ)
    (es : List EpochInput) (k : ℕ) (hk : k < es.length) :
    ((k + 1) ∈ savedEpochs (train flags bf mgn es) ↔
      (epochTestAcc (es.get ⟨k, hk⟩) > 0 ∧
       epochTestAcc (es.get ⟨k, hk⟩) > 8/10 ∧
       epochTestAcc (es.get ⟨k, hk⟩) < 95/100)) := by
  rw [savedEpochs_train, mem_savedEpochs_trainLoop]
  constructor
  · rintro ⟨k', hk', hm, hcond, -⟩
    have hkk : k' = k := by omega
    subst hkk
    exact hcond
  · intro hcond
    exact ⟨k, hk, by omega, hcond, by simp [hdir]⟩

/-- Witness for C1: a one-epoch run with validation accuracy 9/10. -/
theorem checkpoint_save_iff_accuracy_in_band_witness :
    ((0 + 1) ∈ savedEpochs (train wFlags false 10 [wEpoch]) ↔
      (epochTestAcc wEpoch > 0 ∧ epochTestAcc wEpoch > 8/10 ∧
       epochTestAcc wEpoch < 95/100)) :=
  checkpoint_save_iff_accuracy_in_band wFlags "saved_model" rfl false 10 [wEpoch] 0
    (by decide)

/-- C2: the best-accuracy tracking variable is 0 after any number of epochs
of any run, and consequently every epoch whose validation accuracy is
strictly in (0.80, 0.95) re-saves the model. -/
theorem best_acc_tracking_is_constant_zero (flags : Flags) (bf : Bool) (mgn : ℚ)
    (es : List EpochInput) (k : ℕ) :
    accAfterEpochs flags bf mgn es k = 0 ∧
    (∀ p : String, flags.save_model_dir = some p →
      ∀ j : ℕ, ∀ hj : j < es.length,
        epochTestAcc (es.get ⟨j, hj⟩) > 8/10 →
        epochTestAcc (es.get ⟨j, hj⟩) < 95/100 →
        (j + 1) ∈ savedEpochs (train flags bf mgn es)) := by
  constructor
  · exact trainLoop_acc flags bf mgn (es.take k) 0 1
  · intro p hp j hj h1 h2
    rw [savedEpochs_train, mem_savedEpochs_trainLoop]
    refine ⟨j, hj, by omega, ⟨?_, h1, h2⟩, by simp [hp]⟩
    have h0 : (0 : ℚ) < 8/10 := by norm_num
    linarith

/-- Witness for C2: after one epoch the tracker is still 0, and the 9/10
epoch saved. -/
theorem best_acc_tracking_is_constant_zero_witness :
    accAfterEpochs wFlags false 10 [wEpoch] 1 = 0 ∧
    (0 + 1) ∈ savedEpochs (train wFlags false 10 [wEpoch]) :=
  ⟨(best_acc_tracking_is_constant_zero wFlags false 10 [wEpoch] 1).1,
   (best_acc_tracking_is_constant_zero wFlags false 10 [wEpoch] 1).2 "saved_model" rfl 0
     (by decide) (by with_unfolding_all decide) (by with_unfolding_all decide)⟩

/-- C3 amended: the metrics writer receives one "Loss/train" entry per
training batch (keyed by the running epoch index), not one per epoch, and
exactly N "Accuracy/train" / "Accuracy/test" pairs, keyed 1..N in epoch
order. -/
theorem metrics_writer_entry_schedule (flags : Flags) (bf : Bool) (mgn : ℚ)
    (es : List EpochInput) :
    lossEntryKeys (train flags bf mgn es) =
      ((List.enumFrom 1 es).flatMap fun ie =>
        List.replicate ie.2.trainBatches.length ie.1) ∧
    accTrainEntries (train flags bf mgn es) =
      ((List.enumFrom 1 es).map fun ie => (epochTrainAcc ie.2, ie.1)) ∧
    accTestEntries (train flags bf mgn es) =
      ((List.enumFrom 1 es).map fun ie => (epochTestAcc ie.2, ie.1)) := by
  refine ⟨?_, ?_, ?_⟩
  · rw [lossEntryKeys_train, lossEntryKeys_trainLoop]
  · rw [accTrainEntries_train, accTrainEntries_trainLoop]
  · rw [accTestEntries_train, accTestEntries_trainLoop]

/-- Counterexample to C3 as stated: a run of N = 1 epoch whose single epoch
has two training batches produces two "Loss/train" writer entries, not
exactly N = 1. -/
theorem loss_entries_not_one_per_epoch :
    (lossEntryKeys (train cexFlags false 10 [cexEpoch])).length = 2 ∧
    ([cexEpoch] : List EpochInput).length = 1 := by
  constructor
  · with_unfolding_all rfl
  · rfl

/-- C8: the loop covers epochs 1..N (no early stop), and the mutation-phase
operations of the whole run are exactly, per training batch and in order:
zero gradients, forward, accumulate predictions and labels, clip gradients,
backward, optimizer step, accumulate loss. -/
theorem training_step_operation_order (flags : Flags) (bf : Bool) (mgn : ℚ)
    (es : List EpochInput) :
    epochLossKeys (train flags bf mgn es) = List.range' 1 es.length ∧
    mutationOps (train flags bf mgn es) =
      (List.replicate ((es.map fun e => e.trainBatches.length).sum)
        [Event.zeroGrad, Event.forward bf, Event.accumPreds, Event.accumLabels,
         Event.clipGrad mgn, Event.backward, Event.optimizerStep,
         Event.accumLoss]).flatten := by
  constructor
  · rw [epochLossKeys_train, epochLossKeys_trainLoop]
  · rw [mutationOps_train, mutationOps_trainLoop]
    rfl

/-- C9: the per-epoch "Epoch Train Accuracy" log reports the tracking
variable (constant 0) in every epoch, while the computed training accuracy
goes to the metrics writer. -/
theorem epoch_train_accuracy_log_reports_zero (flags : Flags) (bf : Bool) (mgn : ℚ)
    (es : List EpochInput) :
    loggedTrainAccs (train flags bf mgn es) = List.replicate es.length 0 ∧
    accTrainEntries (train flags bf mgn es) =
      ((List.enumFrom 1 es).map fun ie => (epochTrainAcc ie.2, ie.1)) := by
  constructor
  · rw [loggedTrainAccs_train, loggedTrainAccs_trainLoop]
  · rw [accTrainEntries_train, accTrainEntries_trainLoop]

/-- C10: the model enters training mode as the first action of the run, is
never switched to evaluation mode, and hence is in training mode at every
later point of the trace, including every validation forward pass. -/
theorem model_stays_in_training_mode (flags : Flags) (bf : Bool) (mgn : ℚ)
    (es : List EpochInput) :
    (train flags bf mgn es).head? = some Event.modelTrainMode ∧
    Event.modelEvalMode ∉ train flags bf mgn es ∧
    (∀ (init : Bool) (k : ℕ), 0 < k →
      modeAt init ((train flags bf mgn es).take k) = true) := by
  refine ⟨rfl, evalMode_not_mem_train flags bf mgn es, ?_⟩
  intro init k hk
  obtain ⟨k', rfl⟩ : ∃ k', k = k' + 1 := ⟨k - 1, by omega⟩
  have hstep : List.take (k' + 1)
      (Event.modelTrainMode :: ((trainLoop flags bf mgn 0 1 es).1 ++
        [Event.writerClose])) =
      Event.modelTrainMode :: List.take k'
        ((trainLoop flags bf mgn 0 1 es).1 ++ [Event.writerClose]) := rfl
  rw [train, hstep]
  rw [show ∀ l, modeAt init (Event.modelTrainMode :: l) = modeAt true l from
    fun l => rfl]
  apply modeAt_true_of_no_eval
  intro hmem
  have hmem' := List.take_subset k' _ hmem
  rw [List.mem_append, List.mem_singleton] at hmem'
  rcases hmem' with h | h
  · exact evalMode_not_mem_trainLoop flags bf mgn es 0 1 h
  · exact Event.noConfusion h

/-- Witness for C10: mode after the first three events of a concrete run. -/
theorem model_stays_in_training_mode_witness :
    modeAt false ((train wFlags false 10 [wEpoch]).take 3) = true :=
  (model_stays_in_training_mode wFlags false 10 [wEpoch]).2.2 false 3 (by decide)

/-- C5: if the saved model directory does not exist, `main` logs the
"model not found" error and returns normally, with `output_dir` untouched. -/
theorem missing_model_dir_logs_and_returns (w : QuantWorld)
    (h : w.savedModelDirExists = false) :
    main w = QOutcome.ret [QEvent.logModelNotFound w.flags.saved_model_dir]
      w.outFiles0 := by
  unfold main
  rw [if_pos h]

/-- Witness for C5 at a concrete world with a missing model directory. -/
theorem missing_model_dir_logs_and_returns_witness :
    main cwMissing = QOutcome.ret [QEvent.logModelNotFound "saved_model"] [] :=
  missing_model_dir_logs_and_returns cwMissing rfl

/-- C6: a `FileNotFoundError` from the preprocessing collaborator is caught,
logged (message plus traceback) and `main` returns normally; every other
collaborator exception propagates uncaught. -/
theorem preprocess_error_handling (w : QuantWorld) :
    (w.savedModelDirExists = true → w.tokenizerLoad = Except.ok () →
      w.preprocess = Except.error PyExc.fileNotFound →
      main w = QOutcome.ret [QEvent.logDownloadData, QEvent.logExcTraceback]
        w.outFiles0) ∧
    (∀ e : PyExc, w.savedModelDirExists = true →
      w.tokenizerLoad = Except.error e →
      main w = QOutcome.raised e [] w.outFiles0) ∧
    (∀ tag : String, w.savedModelDirExists = true →
      w.tokenizerLoad = Except.ok () →
      w.preprocess = Except.error (PyExc.err tag) →
      main w = QOutcome.raised (PyExc.err tag) [] w.outFiles0) ∧
    (∀ e : PyExc, w.savedModelDirExists = true →
      w.tokenizerLoad = Except.ok () → w.preprocess = Except.ok () →
      w.modelLoad = Except.error e →
      main w = QOutcome.raised e [] w.outFiles0) ∧
    (∀ e : PyExc, w.savedModelDirExists = true →
      w.tokenizerLoad = Except.ok () → w.preprocess = Except.ok () →
      w.modelLoad = Except.ok () → w.quantFit = Except.error e →
      main w = QOutcome.raised e [] w.outFiles0) ∧
    (∀ e : PyExc, w.savedModelDirExists = true →
      w.tokenizerLoad = Except.ok () → w.preprocess = Except.ok () →
      w.modelLoad = Except.ok () → w.quantFit = Except.ok () →
      w.quantSave = Except.error e →
      main w = QOutcome.raised e [] w.outFiles0) := by
  refine ⟨?_, ?_, ?_, ?_, ?_, ?_⟩
  · intro h1 h2 h3
    simp [main, h1, h2, h3]
  · intro e h1 h2
    simp [main, h1, h2]
  · intro tag h1 h2 h3
    simp [main, h1, h2, h3]
  · intro e h1 h2 h3 h4
    simp [main, h1, h2, h3, h4]
  · intro e h1 h2 h3 h4 h5
    simp [main, h1, h2, h3, h4, h5]
  · intro e h1 h2 h3 h4 h5 h6
    simp [main, h1, h2, h3, h4, h5, h6]

/-- Witness for C6: a missing data file is logged and returns normally,
while a RuntimeError from preprocessing propagates. -/
theorem preprocess_error_handling_witness :
    main cwFnf = QOutcome.ret [QEvent.logDownloadData, QEvent.logExcTraceback] [] ∧
    main cwOther = QOutcome.raised (PyExc.err "RuntimeError") [] [] :=
  ⟨(preprocess_error_handling cwFnf).1 rfl rfl rfl,
   (preprocess_error_handling cwOther).2.2.1 "RuntimeError" rfl rfl rfl⟩

/-- C4: after a successful quantization run the output directory holds the
file set computed by the conditional copy; when "best_model.pt" is present
it contains the quantized artifact and every non-weight source file and no
weight-pattern file that was not already there, and when it is absent the
copy is silently skipped. -/
theorem quantized_output_dir_contents (w : QuantWorld)
    (hex : w.savedModelDirExists = true)
    (ht : w.tokenizerLoad = Except.ok ()) (hp : w.preprocess = Except.ok ())
    (hm : w.modelLoad = Except.ok ()) (hf : w.quantFit = Except.ok ())
    (hs : w.quantSave = Except.ok ()) :
    main w = QOutcome.ret []
      (copyNonWeightFiles w.srcFiles (w.outFiles0 ++ w.saveFiles)) ∧
    ("best_model.pt" ∈ w.outFiles0 ++ w.saveFiles →
      "best_model.pt" ∈ copyNonWeightFiles w.srcFiles (w.outFiles0 ++ w.saveFiles) ∧
      (∀ f ∈ w.srcFiles, matchesBinPattern f = false →
        f ∈ copyNonWeightFiles w.srcFiles (w.outFiles0 ++ w.saveFiles)) ∧
      (∀ f : String, matchesBinPattern f = true → f ∉ w.outFiles0 ++ w.saveFiles →
        f ∉ copyNonWeightFiles w.srcFiles (w.outFiles0 ++ w.saveFiles))) ∧
    ("best_model.pt" ∉ w.outFiles0 ++ w.saveFiles →
      copyNonWeightFiles w.srcFiles (w.outFiles0 ++ w.saveFiles) =
        w.outFiles0 ++ w.saveFiles) := by
  refine ⟨by simp [main, hex, ht, hp, hm, hf, hs], ?_, ?_⟩
  · intro hb
    unfold copyNonWeightFiles
    rw [if_pos hb]
    refine ⟨List.mem_append_left _ hb, ?_, ?_⟩
    · intro f hf1 hf2
      refine List.mem_append_right _ ?_
      rw [List.mem_filter]
      exact ⟨hf1, by rw [hf2]; rfl⟩
    · intro f hf1 hf2 hmem
      rcases List.mem_append.mp hmem with h | h
      · exact hf2 h
      · rw [List.mem_filter] at h
        rw [hf1] at h
        exact Bool.noConfusion h.2
  · intro hb
    unfold copyNonWeightFiles
    rw [if_neg hb]

/-- Witness for C4 at a successful concrete run. -/
theorem quantized_output_dir_contents_witness :
    main cwOk = QOutcome.ret []
      (copyNonWeightFiles cwOk.srcFiles (cwOk.outFiles0 ++ cwOk.saveFiles)) ∧
    ("best_model.pt" ∈ cwOk.outFiles0 ++ cwOk.saveFiles →
      "best_model.pt" ∈
        copyNonWeightFiles cwOk.srcFiles (cwOk.outFiles0 ++ cwOk.saveFiles) ∧
      (∀ f ∈ cwOk.srcFiles, matchesBinPattern f = false →
        f ∈ copyNonWeightFiles cwOk.srcFiles (cwOk.outFiles0 ++ cwOk.saveFiles)) ∧
      (∀ f : String, matchesBinPattern f = true →
        f ∉ cwOk.outFiles0 ++ cwOk.saveFiles →
        f ∉ copyNonWeightFiles cwOk.srcFiles (cwOk.outFiles0 ++ cwOk.saveFiles))) ∧
    ("best_model.pt" ∉ cwOk.outFiles0 ++ cwOk.saveFiles →
      copyNonWeightFiles cwOk.srcFiles (cwOk.outFiles0 ++ cwOk.saveFiles) =
        cwOk.outFiles0 ++ cwOk.saveFiles) :=
  quantized_output_dir_contents cwOk rfl rfl rfl rfl rfl rfl

/-- C7: for a valid model (one prediction per sample), the evaluation
function accumulates exactly as many predictions as labels, one per element
the loader yields, and returns an accuracy in [0, 1]. -/
theorem evaluate_accuracy_accumulates (α : Type) (modelArgmax : α → List ℤ)
    (loader : List (α × List ℤ))
    (hvalid : ∀ bl ∈ loader, (modelArgmax bl.1).length = bl.2.length) :
    (evalLoop modelArgmax loader).1.length =
      (loader.map fun bl => bl.2.length).sum ∧
    (evalLoop modelArgmax loader).2.length =
      (loader.map fun bl => bl.2.length).sum ∧
    0 ≤ evaluate_accuracy modelArgmax loader ∧
    evaluate_accuracy modelArgmax loader ≤ 1 := by
  have hloop := evalLoop_spec modelArgmax loader ([], [])
  refine ⟨?_, ?_, (accuracy_score_bounds _ _).1, (accuracy_score_bounds _ _).2⟩
  · rw [evalLoop, hloop]
    simp only [List.nil_append, List.length_flatten, List.map_map]
    congr 1
    refine List.map_congr_left ?_
    intro bl hbl
    exact hvalid bl hbl
  · rw [evalLoop, hloop]
    simp only [List.nil_append, List.length_flatten, List.map_map]
    rfl

/-- Witness for C7 at a concrete one-batch loader of two samples. -/
theorem evaluate_accuracy_accumulates_witness :
    (evalLoop cModel cLoader).1.length =
      (cLoader.map fun bl => bl.2.length).sum ∧
    (evalLoop cModel cLoader).2.length =
      (cLoader.map fun bl => bl.2.length).sum ∧
    0 ≤ evaluate_accuracy cModel cLoader ∧
    evaluate_accuracy cModel cLoader ≤ 1 :=
  evaluate_accuracy_accumulates Unit cModel cLoader (by decide)

end DiseasePred
